import Mathlib

/-!
Shallow embedding of the beckhoff-fanuc acquisition/classification scripts
(`data_process.py`, `data_process_gongkuang.py`, `plc_plot.py`).

Modelling conventions:
* PLC samples are 16-bit integers; they are modelled as `ℤ` (the transport
  datatype `PLCTYPE_INT` already delivers int16 values, so the `np.int16`
  casts in the sources are the identity on the delivered values).
* Python float arithmetic (`float64`) is idealised as exact arithmetic:
  `ℚ` for interval/threshold bookkeeping, `ℝ` for the RMS features
  (which involve `sqrt`).
* Python list/array slicing `a[k:]`, `a[:k]` (total for every integer `k`,
  with negative indices counting from the end) is modelled by `pyNorm`.
* Mutable object state (`DataLoggerApp.cutting_state`, `state_history`,
  `sample_index`, `is_realtime_running`) is modelled by explicit state
  records passed through step functions.
-/

/-- The three operating states of the classifier (`'STOP'`, `'IDLE'`,
`'CUTTING'` strings in the source). -/
inductive CState where
  | STOP
  | IDLE
  | CUTTING
deriving DecidableEq, Repr

open CState

/-- `TOTAL_CHANNELS = 33` (source constant). -/
def TOTAL_CHANNELS : ℕ := 33

/-- `VIBRATION_CHANNELS = 30` (source constant). -/
def VIBRATION_CHANNELS : ℕ := 30

/-- `CURRENT_CHANNELS = 3` (source constant). -/
def CURRENT_CHANNELS : ℕ := 3

/-- `VIBRATION_GROUP_SIZE = 10` (source constant). -/
def VIBRATION_GROUP_SIZE : ℕ := 10

/-- `SAMPLE_COUNT = 100` (source constant). -/
def SAMPLE_COUNT : ℕ := 100

/-- `FULL_CHANNELS = 80` (source constant). -/
def FULL_CHANNELS : ℕ := 80

/-- `FULL_BUFFER_LENGTH = FULL_CHANNELS * SAMPLE_COUNT` (source constant). -/
def FULL_BUFFER_LENGTH : ℕ := FULL_CHANNELS * SAMPLE_COUNT

/-- `STABILITY_CHECK_COUNT = 5` (source constant, the stability window H). -/
def STABILITY_CHECK_COUNT : ℕ := 5

/-- `BASE_SAMPLING_FREQUENCY = 1000` Hz (`plc_plot.py`). -/
def BASE_SAMPLING_FREQUENCY : ℚ := 1000

/-- `VIB_SAMPLING_FREQUENCY = BASE_SAMPLING_FREQUENCY * VIBRATION_GROUP_SIZE`
(`plc_plot.py`, = 10000 Hz). -/
def VIB_SAMPLING_FREQUENCY : ℚ := BASE_SAMPLING_FREQUENCY * (VIBRATION_GROUP_SIZE : ℚ)

/-- `CURR_SAMPLING_FREQUENCY = BASE_SAMPLING_FREQUENCY` (`plc_plot.py`). -/
def CURR_SAMPLING_FREQUENCY : ℚ := BASE_SAMPLING_FREQUENCY

/-- Normalisation of a Python slice endpoint `k` for a sequence of length
`n`: `l[k:] = drop (pyNorm k n) l` and `l[:k] = take (pyNorm k n) l`.
Negative endpoints count from the end and everything is clamped into
`[0, n]`, exactly as Python slicing behaves (it never raises). -/
def pyNorm (k : ℤ) (n : ℕ) : ℕ :=
  if k < 0 then ((n : ℤ) + k).toNat else min k.toNat n

/-- Python `l[k:]`. -/
def pySliceFrom (l : List ℤ) (k : ℤ) : List ℤ := l.drop (pyNorm k l.length)

/-- Python `l[:k]`. -/
def pySliceTo (l : List ℤ) (k : ℤ) : List ℤ := l.take (pyNorm k l.length)

/-- Ring-buffer reconstruction as performed per channel in
`data_process.py` / `data_process_gongkuang.py` `process_data`
(the head-minus-one convention, no clamping):
`part1 = channel_raw[write_ptr - 1:]`, `part2 = channel_raw[:write_ptr - 1]`,
output `part1 ++ part2`. -/
def dp_reconstruct (row : List ℤ) (write_ptr : ℤ) : List ℤ :=
  pySliceFrom row (write_ptr - 1) ++ pySliceTo row (write_ptr - 1)

/-- Head clamping as performed in `plc_plot.py` `GUI.process_data`:
`if write_ptr >= SAMPLE_COUNT: write_ptr = SAMPLE_COUNT - 1` and then
`if write_ptr < 0: write_ptr = 0`. -/
def gui_clamp_ptr (write_ptr : ℤ) (s : ℕ) : ℤ :=
  let p1 := if write_ptr ≥ (s : ℤ) then (s : ℤ) - 1 else write_ptr
  if p1 < 0 then 0 else p1

/-- Ring-buffer reconstruction as performed per channel in `plc_plot.py`
`GUI.process_data` (the head convention, with defensive clamping):
`concatenate((channel_raw[write_ptr:], channel_raw[:write_ptr]))` after
clamping `write_ptr` against `SAMPLE_COUNT`. -/
def gui_reconstruct (row : List ℤ) (write_ptr : ℤ) : List ℤ :=
  let p := gui_clamp_ptr write_ptr SAMPLE_COUNT
  pySliceFrom row p ++ pySliceTo row p

/-- `interleave_vibration` from `plc_plot.py`: `channels_data.T.flatten()`.
For a rectangular `G × n` matrix (a list of `G` channel rows of `n`
samples each), numpy transpose-then-flatten emits, for each sample index
`t`, the `t`-th sample of every channel in channel order. -/
def interleave_vibration (channels_data : List (List ℤ)) : List ℤ :=
  ((List.range channels_data.headI.length).map
    (fun t => channels_data.map (fun r => r.getD t 0))).flatten

/-- Python `round` (round-half-to-even, as applied by `plc_plot.py` to the
float `T_interval_ms * (rate / 1000)`), idealised on `ℚ`. -/
def pyRound (q : ℚ) : ℤ :=
  if q - ⌊q⌋ < 1/2 then ⌊q⌋
  else if 1/2 < q - ⌊q⌋ then ⌊q⌋ + 1
  else if 2 ∣ ⌊q⌋ then ⌊q⌋ else ⌊q⌋ + 1

/-- Python `int()` on a float (truncation toward zero, as applied by
`data_process_gongkuang.py` to `T_interval_ms`), idealised on `ℚ`. -/
def pyTrunc (q : ℚ) : ℤ :=
  if q < 0 then ⌈q⌉ else ⌊q⌋

/-- `plc_plot.py` line 300/304: incremental vibration point count
`N_inc_vib_points = int(round(T * (VIB_SAMPLING_FREQUENCY / 1000)))`
then `min(N_inc_vib_points, VIBRATION_GROUP_SIZE * SAMPLE_COUNT)`. -/
def plc_N_inc_vib (T_interval_ms : ℚ) : ℤ :=
  min (pyRound (T_interval_ms * (VIB_SAMPLING_FREQUENCY / 1000)))
    ((VIBRATION_GROUP_SIZE * SAMPLE_COUNT : ℕ) : ℤ)

/-- `plc_plot.py` line 301/305: incremental current point count
`N_inc_curr_points = int(round(T * (CURR_SAMPLING_FREQUENCY / 1000)))`
then `min(N_inc_curr_points, SAMPLE_COUNT)`. -/
def plc_N_inc_curr (T_interval_ms : ℚ) : ℤ :=
  min (pyRound (T_interval_ms * (CURR_SAMPLING_FREQUENCY / 1000)))
    ((SAMPLE_COUNT : ℕ) : ℤ)

/-- `data_process_gongkuang.py` lines 257-260: per-channel incremental
point count `N_inc_curr = min(int(T_interval_ms), SAMPLE_COUNT)`,
used for both the current rows and the vibration rows. -/
def gk_N_inc_curr (T_interval_ms : ℚ) : ℤ :=
  min (pyTrunc T_interval_ms) ((SAMPLE_COUNT : ℕ) : ℤ)

/-- The incremental window size claimed by the specification:
`N_inc = round(intervalMs * sampleRateHz / 1000)` clamped into
`[0, len(series)]`. Modelled from the spec's words for comparison with
the code's formulas. -/
def spec_N_inc (intervalMs sampleRateHz : ℚ) (seriesLen : ℕ) : ℤ :=
  max 0 (min (pyRound (intervalMs * sampleRateHz / 1000)) ((seriesLen : ℕ) : ℤ))

/-- The defensive clamp of a head index into the valid range `[0, len)`
claimed by the specification (`PointerOutOfRange → clamp`). Modelled from
the spec's words for comparison with `data_process.py`. -/
def spec_clamp_head (h : ℤ) (n : ℕ) : ℤ :=
  max 0 (min h ((n : ℤ) - 1))

/-- Instantaneous (memoryless) classification from
`DataLoggerApp.classify_cutting_state` (`data_process_gongkuang.py`
lines 320-325): start from `'STOP'`; when
`current_rms_value >= idle_thresh`, refine to `'CUTTING'` when
`vib_rms_value >= vib_thresh`, else `'IDLE'`. -/
noncomputable def instant_state (current_rms_value vib_rms_value idle_thresh vib_thresh : ℝ) :
    CState :=
  if current_rms_value ≥ idle_thresh then
    if vib_rms_value ≥ vib_thresh then CUTTING else IDLE
  else STOP

/-- History update from `classify_cutting_state` lines 328-330:
`self.state_history.append(s)` and, when the length exceeds
`self.stability_check_count`, `self.state_history.pop(0)`. -/
def push_history (state_history : List CState) (s : CState) (stability_check_count : ℕ) :
    List CState :=
  let appended := state_history ++ [s]
  if appended.length > stability_check_count then appended.tail else appended

/-- Confirmed-state update from `classify_cutting_state` lines 336-347,
evaluated on the already-updated history (the source's `elif` chain;
the `STOP` branch assigns `'STOP'` only when the state differs, which
has the same result as always assigning it). -/
def fsm_transition (cutting_state : CState) (state_history : List CState)
    (majority_count : ℕ) : CState :=
  if cutting_state ≠ CUTTING ∧ state_history.count CUTTING ≥ majority_count then CUTTING
  else if cutting_state = CUTTING ∧ state_history.count IDLE ≥ majority_count then IDLE
  else if state_history.count STOP ≥ majority_count then STOP
  else if state_history.count IDLE ≥ majority_count then IDLE
  else cutting_state

/-- One classifier cycle at the level of instantaneous labels: push the
label into the history, then run the confirmed-state transition. -/
def fsm_step (stability_check_count : ℕ) (s : CState × List CState) (label : CState) :
    CState × List CState :=
  let updated := push_history s.2 label stability_check_count
  (fsm_transition s.1 updated stability_check_count, updated)

/-- Iterated classifier cycles over a list of instantaneous labels. -/
def run_fsm (cutting_state : CState) (state_history : List CState)
    (labels : List CState) (stability_check_count : ℕ) : CState × List CState :=
  labels.foldl (fsm_step stability_check_count) (cutting_state, state_history)

/-- One full step of `DataLoggerApp.classify_cutting_state` given the two
RMS feature values and the two thresholds: instantaneous classification,
history push, confirmed-state transition. Returns the new
`(cutting_state, state_history)` pair. -/
noncomputable def classify_step (current_rms_value vib_rms_value idle_thresh vib_thresh : ℝ)
    (cutting_state : CState) (state_history : List CState)
    (stability_check_count : ℕ) : CState × List CState :=
  fsm_step stability_check_count (cutting_state, state_history)
    (instant_state current_rms_value vib_rms_value idle_thresh vib_thresh)

/-- Modelled from the spec: the reference instantaneous rule
(`currentFeature < idleThreshold → STOP`, else
`vibrationFeature ≥ cuttingThreshold → CUTTING`, else `IDLE`). -/
noncomputable def spec_instant (currentFeature vibrationFeature idleThreshold cuttingThreshold : ℝ) :
    CState :=
  if currentFeature < idleThreshold then STOP
  else if vibrationFeature ≥ cuttingThreshold then CUTTING
  else IDLE

/-- Modelled from the spec: append the instantaneous label to the history
queue, a FIFO of capacity `H` whose oldest entries are evicted beyond `H`. -/
def spec_append (queue : List CState) (label : CState) (H : ℕ) : List CState :=
  let appended := queue ++ [label]
  appended.drop (appended.length - H)

/-- Modelled from the spec: transition rules a-e evaluated in priority
order against the currently confirmed state. -/
def spec_transition (confirmed : CState) (queue : List CState) (H : ℕ) : CState :=
  if confirmed ≠ CUTTING ∧ queue.count CUTTING ≥ H then CUTTING
  else if confirmed = CUTTING ∧ queue.count IDLE ≥ H then IDLE
  else if queue.count STOP ≥ H then STOP
  else if queue.count IDLE ≥ H then IDLE
  else confirmed

/-- Modelled from the spec: the reference state machine's full per-cycle
step (instantaneous classification, queue append with eviction,
rules a-e). -/
noncomputable def spec_classifier_step (currentFeature vibrationFeature idleThreshold cuttingThreshold : ℝ)
    (confirmed : CState) (queue : List CState) (H : ℕ) : CState × List CState :=
  let q := spec_append queue
    (spec_instant currentFeature vibrationFeature idleThreshold cuttingThreshold) H
  (spec_transition confirmed q H, q)

/-- Mean of squares `np.mean(series.astype(np.float64)**2)` (0 on the
empty series, where numpy would produce NaN). -/
noncomputable def meanSq (series : List ℤ) : ℝ :=
  (series.map (fun x : ℤ => ((x : ℝ)) ^ 2)).sum / series.length

/-- Root mean square `sqrt(mean(series[i]^2))`. -/
noncomputable def rms (series : List ℤ) : ℝ := Real.sqrt (meanSq series)

/-- `DataLoggerApp.calculate_current_feature`: the average of the
three per-phase RMS values, computed as in the source
(`(sqrt(ms_a) + sqrt(ms_b) + sqrt(ms_c)) / 3`). -/
noncomputable def calculate_current_feature (curr_a curr_b curr_c : List ℤ) : ℝ :=
  (Real.sqrt (meanSq curr_a) + Real.sqrt (meanSq curr_b) + Real.sqrt (meanSq curr_c)) / 3

/-- `DataLoggerApp.calculate_vibration_feature`: the RMS of the Z-axis
vibration series. -/
noncomputable def calculate_vibration_feature (vib_z : List ℤ) : ℝ :=
  Real.sqrt (meanSq vib_z)

/-- The per-channel views produced by the demultiplexing part of
`DataLoggerApp.process_data` (`data_process_gongkuang.py`): three
flattened vibration axis series and three current phase rows. -/
structure ProcessedData where
  X : List ℤ
  Y : List ℤ
  Z : List ℤ
  A : List ℤ
  B : List ℤ
  C : List ℤ
deriving DecidableEq

/-- `np.array(raw_data).reshape(FULL_CHANNELS, SAMPLE_COUNT)`: row `i` is
the slice `raw_data[i*SAMPLE_COUNT : (i+1)*SAMPLE_COUNT]`. -/
def reshape_rows (raw_data : List ℤ) : List (List ℤ) :=
  (List.range FULL_CHANNELS).map (fun i => (raw_data.drop (i * SAMPLE_COUNT)).take SAMPLE_COUNT)

/-- The reconstruction loop of `DataLoggerApp.process_data`
(`data_process_gongkuang.py` lines 220-227): one head-minus-one
ring-buffer reconstruction per effective channel, row `i` of the
reshaped block with head `index_array[i]`. -/
def continuous_rows (raw_data index_data : List ℤ) : List (List ℤ) :=
  (List.range TOTAL_CHANNELS).map
    (fun i => dp_reconstruct ((reshape_rows raw_data).getD i []) (index_data.getD i 0))

/-- `DataLoggerApp.process_data` from `data_process_gongkuang.py`:
reshape (failing with `none` when the flat block does not hold
`FULL_CHANNELS × SAMPLE_COUNT` entries, the source's `ValueError` path),
per-channel ring-buffer reconstruction with the head-minus-one
convention, then demultiplexing into the three flattened vibration axis
series (`[0:10]`, `[10:20]`, `[20:30]`) and the three current rows.
The incremental slices it also returns are windowing bookkeeping
(embedded separately as `gk_N_inc_curr`) and are not needed by any
claim about classifier state. -/
def process_data_gk (raw_data index_data : List ℤ) : Option ProcessedData :=
  if raw_data.length = FULL_BUFFER_LENGTH then
    let continuous := continuous_rows raw_data index_data
    let vib := continuous.take VIBRATION_CHANNELS
    let cur := continuous.drop VIBRATION_CHANNELS
    some ⟨(vib.take 10).flatten, ((vib.drop 10).take 10).flatten,
      ((vib.drop 20).take 10).flatten, cur.getD 0 [], cur.getD 1 [], cur.getD 2 []⟩
  else none

/-- The mutable fields of `DataLoggerApp` touched by
`realtime_monitor_loop`, plus a counter of how many times the downstream
save/emit collaborator (`save_processed_data_to_file` together with
`send_data_to_model`) has been invoked. -/
structure MonitorState where
  cutting_state : CState
  state_history : List CState
  sample_index : ℕ
  is_realtime_running : Bool
  saved_count : ℕ
deriving DecidableEq

/-- The part of a `realtime_monitor_loop` tick after a successful fetch
(`data_process_gongkuang.py` lines 434-462): process the block, and on
success bump the cycle counter, classify, and invoke the save/emit
collaborator exactly when the confirmed state is `CUTTING`; when
`process_data` yields no data (reshape failure) nothing is mutated and
the tick falls through to the rescheduling line. -/
noncomputable def monitor_cycle_body (idle_thresh vib_thresh : ℝ)
    (raw_data index_data : List ℤ) (s : MonitorState) : MonitorState :=
  match process_data_gk raw_data index_data with
  | none => s
  | some pd =>
    let current_rms_value := calculate_current_feature pd.A pd.B pd.C
    let vib_rms_value := calculate_vibration_feature pd.Z
    let next := classify_step current_rms_value vib_rms_value idle_thresh vib_thresh
      s.cutting_state s.state_history STABILITY_CHECK_COUNT
    let s2 : MonitorState :=
      { s with cutting_state := next.1, state_history := next.2,
               sample_index := s.sample_index + 1 }
    if next.1 = CUTTING then { s2 with saved_count := s2.saved_count + 1 } else s2

/-- One tick of `DataLoggerApp.realtime_monitor_loop`
(`data_process_gongkuang.py` lines 418-471), with the atomic transport
read modelled as the `fetch` input (`none` = `_read_data_atomic`
returned no data). On fetch failure the source calls
`stop_realtime_monitor()` and returns, so `is_realtime_running`
becomes `false` and no further tick is scheduled.
`is_realtime_running = true` at the end of the tick is exactly the
condition under which the source schedules the next tick. -/
noncomputable def monitor_step (idle_thresh vib_thresh : ℝ)
    (fetch : Option (List ℤ × List ℤ)) (s : MonitorState) : MonitorState :=
  if s.is_realtime_running then
    match fetch with
    | none => { s with is_realtime_running := false }
    | some (raw_data, index_data) =>
      monitor_cycle_body idle_thresh vib_thresh raw_data index_data s
  else s

/-- Iterated monitor ticks over a list of per-tick fetch results. -/
noncomputable def monitor_run (idle_thresh vib_thresh : ℝ)
    (inputs : List (Option (List ℤ × List ℤ))) (s : MonitorState) : MonitorState :=
  inputs.foldl (fun st inp => monitor_step idle_thresh vib_thresh inp st) s

/-- The monitor state right after `start_realtime_monitor` on a fresh
`DataLoggerApp`: confirmed state `STOP`, empty history, cycle counter 0,
running flag set, no emissions yet. -/
def initial_monitor_state : MonitorState := ⟨STOP, [], 0, true, 0⟩

theorem pyNorm_le (k : ℤ) (n : ℕ) : pyNorm k n ≤ n := by
  unfold pyNorm
  split_ifs with h
  · omega
  · exact min_le_right _ _

theorem pyNorm_coe_of_le (h n : ℕ) (hh : h ≤ n) : pyNorm (h : ℤ) n = h := by
  unfold pyNorm
  rw [if_neg (by omega)]
  omega

theorem dp_reconstruct_eq_rotate (row : List ℤ) (write_ptr : ℤ) :
    dp_reconstruct row write_ptr = row.rotate (pyNorm (write_ptr - 1) row.length) := by
  unfold dp_reconstruct pySliceFrom pySliceTo
  exact (List.rotate_eq_drop_append_take (pyNorm_le _ _)).symm

theorem gui_reconstruct_eq_rotate (row : List ℤ) (write_ptr : ℤ) :
    gui_reconstruct row write_ptr =
      row.rotate (pyNorm (gui_clamp_ptr write_ptr SAMPLE_COUNT) row.length) := by
  unfold gui_reconstruct pySliceFrom pySliceTo
  exact (List.rotate_eq_drop_append_take (pyNorm_le _ _)).symm

theorem gui_clamp_ptr_eq (write_ptr : ℤ) (s : ℕ) :
    gui_clamp_ptr write_ptr s =
      if (if write_ptr ≥ (s : ℤ) then (s : ℤ) - 1 else write_ptr) < 0 then 0
      else if write_ptr ≥ (s : ℤ) then (s : ℤ) - 1 else write_ptr := rfl

theorem gui_clamp_ptr_nonneg (write_ptr : ℤ) (s : ℕ) : 0 ≤ gui_clamp_ptr write_ptr s := by
  rw [gui_clamp_ptr_eq]
  split_ifs <;> omega

theorem gui_clamp_ptr_lt (write_ptr : ℤ) (s : ℕ) (hs : 0 < s) :
    gui_clamp_ptr write_ptr s < (s : ℤ) := by
  rw [gui_clamp_ptr_eq]
  split_ifs <;> omega

theorem gui_reconstruct_def (row : List ℤ) (write_ptr : ℤ) :
    gui_reconstruct row write_ptr =
      row.drop (pyNorm (gui_clamp_ptr write_ptr SAMPLE_COUNT) row.length) ++
        row.take (pyNorm (gui_clamp_ptr write_ptr SAMPLE_COUNT) row.length) := rfl

/-- Claim C10: for every head value — 16-bit values outside `[0,
sampleCount)` included — the per-channel reconstruction output is a
cyclic rotation of the input row: it has exactly the input's length and
the same multiset of samples (no sample lost or duplicated), in both the
head-minus-one variant (`data_process.py`) and the head variant
(`plc_plot.py`). -/
theorem C10_reconstruct_rotation (row : List ℤ) (write_ptr : ℤ) :
    ((dp_reconstruct row write_ptr).length = row.length ∧
      (dp_reconstruct row write_ptr).Perm row ∧
      ∃ m, dp_reconstruct row write_ptr = row.rotate m) ∧
    ((gui_reconstruct row write_ptr).length = row.length ∧
      (gui_reconstruct row write_ptr).Perm row ∧
      ∃ m, gui_reconstruct row write_ptr = row.rotate m) := by
  constructor
  · rw [dp_reconstruct_eq_rotate]
    exact ⟨List.length_rotate _ _, List.rotate_perm _ _, _, rfl⟩
  · rw [gui_reconstruct_eq_rotate]
    exact ⟨List.length_rotate _ _, List.rotate_perm _ _, _, rfl⟩

theorem pyNorm_pred (h n : ℕ) (hh : h < n) :
    pyNorm ((h : ℤ) - 1) n = (h + (n - 1)) % n := by
  rcases Nat.eq_zero_or_pos h with h0 | h1
  · subst h0
    unfold pyNorm
    rw [if_pos (by omega), Nat.zero_add, Nat.mod_eq_of_lt (by omega)]
    omega
  · unfold pyNorm
    rw [if_neg (by omega)]
    have e2 : h + (n - 1) = n + (h - 1) := by omega
    rw [e2, Nat.add_mod_left, Nat.mod_eq_of_lt (by omega)]
    omega

/-- Claim C2 (amended): for a row of length `SAMPLE_COUNT` and a head
`h ∈ [0, SAMPLE_COUNT)`, the `plc_plot.py` reconstruction returns
`row[h:] ++ row[:h]` (equal length, identity at `h = 0`, last output
element `row[(h-1) mod S]`, written here as `row[(h + (S-1)) % S]`);
the `data_process.py` variant instead splits at `(h-1) mod S`:
it returns `row[(h-1) mod S:] ++ row[:(h-1) mod S]`. -/
theorem C2_amended (row : List ℤ) (h : ℕ) (hlen : row.length = SAMPLE_COUNT)
    (hh : h < SAMPLE_COUNT) :
    (gui_reconstruct row (h : ℤ) = row.drop h ++ row.take h ∧
      (gui_reconstruct row (h : ℤ)).length = SAMPLE_COUNT ∧
      gui_reconstruct row 0 = row ∧
      (gui_reconstruct row (h : ℤ)).getD (SAMPLE_COUNT - 1) 0 =
        row.getD ((h + (SAMPLE_COUNT - 1)) % SAMPLE_COUNT) 0) ∧
    dp_reconstruct row (h : ℤ) =
      row.drop ((h + (SAMPLE_COUNT - 1)) % SAMPLE_COUNT) ++
        row.take ((h + (SAMPLE_COUNT - 1)) % SAMPLE_COUNT) := by
  have hS : SAMPLE_COUNT = 100 := rfl
  have hclamp : gui_clamp_ptr (h : ℤ) SAMPLE_COUNT = (h : ℤ) := by
    rw [gui_clamp_ptr_eq,
      if_neg (show ¬((h : ℤ) ≥ (SAMPLE_COUNT : ℤ)) by omega),
      if_neg (show ¬((h : ℤ) < 0) by omega)]
  have hpy : pyNorm (h : ℤ) row.length = h := by
    rw [hlen]
    exact pyNorm_coe_of_le h SAMPLE_COUNT (le_of_lt hh)
  have hmain : gui_reconstruct row (h : ℤ) = row.drop h ++ row.take h := by
    rw [gui_reconstruct_def, hclamp, hpy]
  have hrot : gui_reconstruct row (h : ℤ) = row.rotate h := by
    rw [gui_reconstruct_eq_rotate, hclamp, hpy]
  have hlen2 : (gui_reconstruct row (h : ℤ)).length = SAMPLE_COUNT := by
    rw [hrot, List.length_rotate, hlen]
  refine ⟨⟨hmain, hlen2, ?_, ?_⟩, ?_⟩
  · have hc0 : gui_clamp_ptr 0 SAMPLE_COUNT = 0 := by
      rw [gui_clamp_ptr_eq,
        if_neg (show ¬((0 : ℤ) ≥ (SAMPLE_COUNT : ℤ)) by omega),
        if_neg (show ¬((0 : ℤ) < 0) by omega)]
    rw [gui_reconstruct_def, hc0]
    have hp0 : pyNorm 0 row.length = 0 := by
      unfold pyNorm
      rw [if_neg (by omega)]
      omega
    rw [hp0]
    simp
  · have hb : SAMPLE_COUNT - 1 < (gui_reconstruct row (h : ℤ)).length := by
      rw [hlen2]
      omega
    rw [List.getD_eq_getElem _ _ hb]
    have hb2 : (h + (SAMPLE_COUNT - 1)) % SAMPLE_COUNT < row.length := by
      rw [hlen]
      exact Nat.mod_lt _ (by omega)
    rw [List.getD_eq_getElem _ _ hb2]
    have hge := List.getElem_rotate row h (SAMPLE_COUNT - 1)
      (by rw [List.length_rotate, hlen]; omega)
    have hidx : (SAMPLE_COUNT - 1 + h) % row.length =
        (h + (SAMPLE_COUNT - 1)) % SAMPLE_COUNT := by
      rw [hlen]
      simp only [hS]
      omega
    simp only [hrot]
    rw [hge]
    simp only [hidx]
  · rw [dp_reconstruct_eq_rotate, hlen, pyNorm_pred h SAMPLE_COUNT hh,
      List.rotate_eq_drop_append_take]
    rw [hlen]
    exact le_of_lt (Nat.mod_lt _ (by omega))

/-- Claim C2, counterexample: the `data_process.py` reconstruction at
head 0 does not return `row[0:] ++ row[:0] = row`; it returns the
rotation by `len - 1`. -/
theorem C2_counterexample :
    dp_reconstruct [10, 20, 30, 40] 0 = [40, 10, 20, 30] ∧
    dp_reconstruct [10, 20, 30, 40] 0 ≠
      [10, 20, 30, 40].drop 0 ++ [10, 20, 30, 40].take 0 := by decide

/-- Claim C2, witness: the amended statement instantiated at a concrete
row of length `SAMPLE_COUNT` and head 7. -/
theorem C2_witness :
    gui_reconstruct (List.replicate 100 (0 : ℤ)) ((7 : ℕ) : ℤ) =
      (List.replicate 100 (0 : ℤ)).drop 7 ++ (List.replicate 100 (0 : ℤ)).take 7 ∧
    dp_reconstruct (List.replicate 100 (0 : ℤ)) ((7 : ℕ) : ℤ) =
      (List.replicate 100 (0 : ℤ)).drop ((7 + (SAMPLE_COUNT - 1)) % SAMPLE_COUNT) ++
        (List.replicate 100 (0 : ℤ)).take ((7 + (SAMPLE_COUNT - 1)) % SAMPLE_COUNT) := by
  have h := C2_amended (List.replicate 100 0) 7 (by simp [SAMPLE_COUNT])
    (by norm_num [SAMPLE_COUNT])
  exact ⟨h.1.1, h.2⟩

/-- Claim C8 (amended): the `plc_plot.py` variant clamps out-of-range
heads into `[0, SAMPLE_COUNT)` (values at or above `SAMPLE_COUNT` to
`SAMPLE_COUNT - 1`, negative values to 0) before splitting and
continues — silently, with no warning — and the head actually used is
always in the valid range; the `data_process.py` variant performs no
clamping, but Python slice semantics keep it total: both variants always
return a full-length row and never crash. -/
theorem C8_amended (row : List ℤ) (write_ptr : ℤ) (hlen : row.length = SAMPLE_COUNT) :
    (0 ≤ gui_clamp_ptr write_ptr SAMPLE_COUNT ∧
      gui_clamp_ptr write_ptr SAMPLE_COUNT < (SAMPLE_COUNT : ℤ)) ∧
    gui_reconstruct row write_ptr =
      row.rotate (gui_clamp_ptr write_ptr SAMPLE_COUNT).toNat ∧
    (gui_reconstruct row write_ptr).length = SAMPLE_COUNT ∧
    (dp_reconstruct row write_ptr).length = SAMPLE_COUNT := by
  have h0 := gui_clamp_ptr_nonneg write_ptr SAMPLE_COUNT
  have h1 := gui_clamp_ptr_lt write_ptr SAMPLE_COUNT (by decide)
  have hpy : pyNorm (gui_clamp_ptr write_ptr SAMPLE_COUNT) row.length =
      (gui_clamp_ptr write_ptr SAMPLE_COUNT).toNat := by
    unfold pyNorm
    rw [if_neg (by omega)]
    rw [hlen]
    omega
  refine ⟨⟨h0, h1⟩, ?_, ?_, ?_⟩
  · rw [gui_reconstruct_eq_rotate, hpy]
  · rw [gui_reconstruct_eq_rotate, List.length_rotate, hlen]
  · rw [dp_reconstruct_eq_rotate, List.length_rotate, hlen]

/-- Claim C8, counterexample: `data_process.py` does not clamp the head
into the valid range before splitting — at head 5 on a row of length 3
it returns the raw row, not the result of splitting at the clamped
head. -/
theorem C8_counterexample :
    dp_reconstruct [10, 20, 30] 5 = [10, 20, 30] ∧
    dp_reconstruct [10, 20, 30] (spec_clamp_head 5 3) = [20, 30, 10] ∧
    ([10, 20, 30] : List ℤ) ≠ [20, 30, 10] := by decide

/-- Claim C8, witness: the amended statement instantiated at an
out-of-range head 150 on a concrete row of length `SAMPLE_COUNT`. -/
theorem C8_witness :
    (0 ≤ gui_clamp_ptr 150 SAMPLE_COUNT ∧
      gui_clamp_ptr 150 SAMPLE_COUNT < (SAMPLE_COUNT : ℤ)) ∧
    (gui_reconstruct (List.replicate 100 (0 : ℤ)) 150).length = SAMPLE_COUNT := by
  have h := C8_amended (List.replicate 100 0) 150 (by simp [SAMPLE_COUNT])
  exact ⟨h.1, h.2.2.1⟩

theorem flatten_getD_uniform (L : List (List ℤ)) (G : ℕ)
    (hG : ∀ c ∈ L, c.length = G) :
    ∀ t g : ℕ, t < L.length → g < G →
      L.flatten.getD (t * G + g) 0 = (L.getD t []).getD g 0 := by
  induction L with
  | nil =>
    intro t g ht _
    simp at ht
  | cons c rest ih =>
    intro t g ht hg
    have hc : c.length = G := hG c (List.mem_cons_self c rest)
    match t with
    | 0 =>
      rw [List.flatten_cons, Nat.zero_mul, Nat.zero_add,
        List.getD_append _ _ _ _ (by omega)]
      rfl
    | Nat.succ t =>
      rw [List.flatten_cons]
      have hlen : c.length ≤ (t + 1) * G + g := by
        rw [hc, Nat.succ_mul]
        omega
      rw [List.getD_append_right _ _ _ _ hlen]
      have harith : (t + 1) * G + g - c.length = t * G + g := by
        rw [hc, Nat.succ_mul]
        omega
      rw [harith, ih (fun x hx => hG x (List.mem_cons_of_mem c hx)) t g
        (by simpa using Nat.lt_of_succ_lt_succ ht) hg]
      rfl

theorem getD_range_map (n : ℕ) (f : ℕ → List ℤ) (t : ℕ) (ht : t < n) :
    ((List.range n).map f).getD t [] = f t := by
  have hlen : t < ((List.range n).map f).length := by
    rw [List.length_map, List.length_range]
    exact ht
  rw [List.getD_eq_getElem _ _ hlen]
  simp

/-- Claim C9: in interleave mode, for a group of `G` channels (in
`plc_plot.py` `G = 10`) each holding `n` chronologically ordered samples,
the output series has length `G * n` and its element at index
`t * G + g` is sample `t` of channel `g` — the `G × n` matrix transposed
and flattened sample-major (so `G` staggered base-rate channels
reconstruct one series at `G` times the base rate). -/
theorem C9_interleave (channels_data : List (List ℤ)) (n : ℕ)
    (hne : channels_data ≠ []) (hlen : ∀ r ∈ channels_data, r.length = n) :
    (interleave_vibration channels_data).length = channels_data.length * n ∧
    ∀ t g : ℕ, t < n → g < channels_data.length →
      (interleave_vibration channels_data).getD (t * channels_data.length + g) 0 =
        (channels_data.getD g []).getD t 0 := by
  have hhead : channels_data.headI.length = n := by
    cases channels_data with
    | nil => exact absurd rfl hne
    | cons c rest => exact hlen c (List.mem_cons_self c rest)
  constructor
  · unfold interleave_vibration
    rw [hhead, List.length_flatten, List.map_map]
    have hmapc : (List.range n).map
        (List.length ∘ fun t => channels_data.map (fun r => r.getD t 0)) =
        List.replicate n channels_data.length := by
      rw [show (List.length ∘ fun t => channels_data.map (fun r => r.getD t 0)) =
          fun _ => channels_data.length from funext (fun t => by simp)]
      rw [List.map_const', List.length_range]
    rw [hmapc, List.sum_replicate, smul_eq_mul, Nat.mul_comm]
  · intro t g ht hg
    unfold interleave_vibration
    rw [hhead]
    have hGfact : ∀ c ∈ (List.range n).map
        (fun t => channels_data.map (fun r => r.getD t 0)),
        c.length = channels_data.length := by
      intro c hc
      rcases List.mem_map.mp hc with ⟨t', _, rfl⟩
      exact List.length_map _ _
    have htt : t < ((List.range n).map
        (fun t => channels_data.map (fun r => r.getD t 0))).length := by
      rw [List.length_map, List.length_range]
      exact ht
    rw [flatten_getD_uniform _ channels_data.length hGfact t g htt hg,
      getD_range_map n _ t ht]
    have hg' : g < (channels_data.map (fun r => r.getD t 0)).length := by
      rw [List.length_map]
      exact hg
    rw [List.getD_eq_getElem _ _ hg', List.getElem_map,
      List.getD_eq_getElem _ _ hg]

/-- Claim C9, witness: the interleave statement instantiated on a
concrete 3-channel group of 2 samples each. -/
theorem C9_witness :
    (interleave_vibration [[1, 2], [3, 4], [5, 6]]).length = 3 * 2 ∧
    (interleave_vibration [[1, 2], [3, 4], [5, 6]]).getD (1 * 3 + 2) 0 =
      ([[1, 2], [3, 4], [5, 6]].getD 2 []).getD 1 0 := by
  have h := C9_interleave [[1, 2], [3, 4], [5, 6]] 2 (by decide) (by decide)
  exact ⟨h.1, h.2 1 2 (by decide) (by decide)⟩

theorem meanSq_replicate (c : ℤ) (n : ℕ) (hn : 1 ≤ n) :
    meanSq (List.replicate n c) = ((c : ℝ)) ^ 2 := by
  unfold meanSq
  rw [List.map_replicate, List.sum_replicate, List.length_replicate, nsmul_eq_mul]
  exact mul_div_cancel_left₀ _ (Nat.cast_ne_zero.mpr (by omega))

/-- Claim C6: `rms(series) = sqrt(mean(series[i]^2))` is nonnegative for
every series; on a constant series `[c] * n` with `n ≥ 1` it equals
`|c|`; it is invariant under permutation of its input; and the derived
features satisfy `vibrationFeature = rms(Z)` and
`currentFeature = (rms(A) + rms(B) + rms(C)) / 3`. -/
theorem C6_rms_features :
    (∀ series : List ℤ, 0 ≤ rms series) ∧
    (∀ (c : ℤ) (n : ℕ), 1 ≤ n → rms (List.replicate n c) = |((c : ℝ))|) ∧
    (∀ s1 s2 : List ℤ, s1.Perm s2 → rms s1 = rms s2) ∧
    (∀ a b c : List ℤ, calculate_current_feature a b c = (rms a + rms b + rms c) / 3) ∧
    (∀ z : List ℤ, calculate_vibration_feature z = rms z) := by
  refine ⟨fun s => Real.sqrt_nonneg _, fun c n hn => ?_, fun s1 s2 hp => ?_,
    fun a b c => rfl, fun z => rfl⟩
  · unfold rms
    rw [meanSq_replicate c n hn, Real.sqrt_sq_eq_abs]
  · unfold rms meanSq
    rw [hp.length_eq, (hp.map _).sum_eq]

/-- Claim C6, witness: the constant-series and permutation statements
instantiated at concrete inputs. -/
theorem C6_witness :
    rms (List.replicate 2 (3 : ℤ)) = |((3 : ℤ) : ℝ)| ∧
    rms [1, 2] = rms [2, 1] :=
  ⟨C6_rms_features.2.1 3 2 (by omega),
    C6_rms_features.2.2.1 [1, 2] [2, 1] (List.Perm.swap 2 1 [])⟩

theorem classify_step_eq (cf vf it ct : ℝ) (st : CState) (q : List CState) (H : ℕ) :
    classify_step cf vf it ct st q H =
      (fsm_transition st (push_history q (instant_state cf vf it ct) H) H,
        push_history q (instant_state cf vf it ct) H) := rfl

theorem spec_classifier_step_eq (cf vf it ct : ℝ) (st : CState) (q : List CState) (H : ℕ) :
    spec_classifier_step cf vf it ct st q H =
      (spec_transition st (spec_append q (spec_instant cf vf it ct) H) H,
        spec_append q (spec_instant cf vf it ct) H) := rfl

theorem fsm_transition_eq_spec (st : CState) (q : List CState) (H : ℕ) :
    fsm_transition st q H = spec_transition st q H := rfl

theorem push_history_eq (q : List CState) (l : CState) (H : ℕ) :
    push_history q l H =
      if (q ++ [l]).length > H then (q ++ [l]).tail else q ++ [l] := rfl

theorem spec_append_eq (q : List CState) (l : CState) (H : ℕ) :
    spec_append q l H = (q ++ [l]).drop ((q ++ [l]).length - H) := rfl

theorem push_history_eq_spec_append (q : List CState) (l : CState) (H : ℕ)
    (hq : q.length ≤ H) : push_history q l H = spec_append q l H := by
  rw [push_history_eq, spec_append_eq]
  have hlen : (q ++ [l]).length = q.length + 1 := by simp
  by_cases hgt : (q ++ [l]).length > H
  · rw [if_pos hgt]
    have hdrop : (q ++ [l]).length - H = 1 := by omega
    rw [hdrop, List.drop_one]
  · rw [if_neg hgt]
    have hdrop : (q ++ [l]).length - H = 0 := by omega
    rw [hdrop, List.drop_zero]

theorem instant_state_eq_spec (cf vf it ct : ℝ) :
    instant_state cf vf it ct = spec_instant cf vf it ct := by
  unfold instant_state spec_instant
  rcases lt_or_le cf it with hlt | hle
  · rw [if_neg (not_le.mpr hlt), if_pos hlt]
  · rw [if_pos hle, if_neg (not_lt.mpr hle)]

/-- Claim C1: for every cycle the classifier step of
`classify_cutting_state` equals the reference state machine of the
specification — the instantaneous label is STOP when
`currentFeature < idleThreshold`, else CUTTING when
`vibrationFeature ≥ cuttingThreshold`, else IDLE; the label is appended
to the history queue with the oldest entries evicted beyond capacity
`H`; and the confirmed state is updated by exactly the priority rules
a-e — provided the queue respects its documented invariant
`length ≤ H`. -/
theorem C1_classifier_step_refines_spec
    (currentFeature vibrationFeature idleThreshold cuttingThreshold : ℝ)
    (confirmed : CState) (queue : List CState) (H : ℕ) (hq : queue.length ≤ H) :
    classify_step currentFeature vibrationFeature idleThreshold cuttingThreshold
        confirmed queue H =
      spec_classifier_step currentFeature vibrationFeature idleThreshold cuttingThreshold
        confirmed queue H := by
  rw [classify_step_eq, spec_classifier_step_eq, instant_state_eq_spec,
    push_history_eq_spec_append _ _ _ hq, fsm_transition_eq_spec]

/-- Claim C1, witness: the refinement instantiated at concrete features,
thresholds, state and queue. -/
theorem C1_witness :
    classify_step 0 0 50 2000 STOP [] 5 = spec_classifier_step 0 0 50 2000 STOP [] 5 :=
  C1_classifier_step_refines_spec 0 0 50 2000 STOP [] 5 (by simp)

/-- Claim C3: with stability window `H = 5`, starting from confirmed
state STOP (and an empty history, the startup state): four consecutive
instantaneous CUTTING labels leave the confirmed state STOP, the fifth
flips it to CUTTING; and a single IDLE label inside an otherwise
all-CUTTING run (after `a ≤ 4` CUTTING labels) keeps the confirmed
state away from CUTTING for the next `n ≤ 4` CUTTING labels, until 5
consecutive CUTTING labels reoccur after the interruption. -/
theorem C3_debounce :
    (run_fsm STOP [] (List.replicate 4 CUTTING) 5).1 = STOP ∧
    (run_fsm STOP [] (List.replicate 5 CUTTING) 5).1 = CUTTING ∧
    (∀ a : ℕ, a ≤ 4 → ∀ n : ℕ, n ≤ 4 →
      (run_fsm STOP [] (List.replicate a CUTTING ++ IDLE :: List.replicate n CUTTING) 5).1 ≠
        CUTTING) ∧
    (∀ a : ℕ, a ≤ 4 →
      (run_fsm STOP [] (List.replicate a CUTTING ++ IDLE :: List.replicate 5 CUTTING) 5).1 =
        CUTTING) := by
  refine ⟨by decide, by decide, ?_, ?_⟩
  · intro a ha n hn
    interval_cases a <;> interval_cases n <;> decide
  · intro a ha
    interval_cases a <;> decide

/-- Claim C3, witness: the bounded statements instantiated at `a = 2`
CUTTING labels before the IDLE interruption and `n = 3` after it. -/
theorem C3_witness :
    (run_fsm STOP [] (List.replicate 2 CUTTING ++ IDLE :: List.replicate 3 CUTTING) 5).1 ≠
      CUTTING ∧
    (run_fsm STOP [] (List.replicate 2 CUTTING ++ IDLE :: List.replicate 5 CUTTING) 5).1 =
      CUTTING :=
  ⟨C3_debounce.2.2.1 2 (by omega) 3 (by omega), C3_debounce.2.2.2 2 (by omega)⟩

theorem floor_le_pyRound (q : ℚ) : ⌊q⌋ ≤ pyRound q := by
  unfold pyRound
  split_ifs <;> omega

theorem pyRound_intCast (m : ℤ) : pyRound ((m : ℚ)) = m := by
  unfold pyRound
  rw [Int.floor_intCast]
  norm_num

theorem pyRound_nonneg (q : ℚ) (hq : 0 ≤ q) : 0 ≤ pyRound q := by
  have h0 : 0 ≤ ⌊q⌋ := Int.floor_nonneg.mpr hq
  have h1 := floor_le_pyRound q
  omega

theorem le_pyRound_of_le (m : ℤ) (q : ℚ) (h : (m : ℚ) ≤ q) : m ≤ pyRound q := by
  have h0 : m ≤ ⌊q⌋ := Int.le_floor.mpr h
  have h1 := floor_le_pyRound q
  omega

/-- Claim C5 (amended): for nonnegative `intervalMs`, the `plc_plot.py`
extractor computes, independently per family,
`N_inc = round(intervalMs * familyRateHz / 1000)` clamped above to the
family's series length (hence landing in `[0, len]`); in particular
10000 Hz with 10 ms gives 100, and an interval at or beyond the full
100 ms window clamps to the series length. The
`data_process_gongkuang.py` extractor instead uses the truncated
base-rate count `min(int(intervalMs), SAMPLE_COUNT)` per channel for
both families — truncation, not rounding. -/
theorem C5_amended (T : ℚ) (hT : 0 ≤ T) :
    (plc_N_inc_vib T = min (pyRound (T * 10000 / 1000)) 1000 ∧
      0 ≤ plc_N_inc_vib T ∧ plc_N_inc_vib T ≤ 1000 ∧
      plc_N_inc_curr T = min (pyRound (T * 1000 / 1000)) 100 ∧
      0 ≤ plc_N_inc_curr T ∧ plc_N_inc_curr T ≤ 100) ∧
    (100 ≤ T → plc_N_inc_vib T = 1000 ∧ plc_N_inc_curr T = 100) ∧
    plc_N_inc_vib 10 = 100 ∧ plc_N_inc_curr 10 = 10 ∧
    gk_N_inc_curr T = min (pyTrunc T) 100 := by
  have hargv : T * (VIB_SAMPLING_FREQUENCY / 1000) = T * 10000 / 1000 := by
    unfold VIB_SAMPLING_FREQUENCY BASE_SAMPLING_FREQUENCY VIBRATION_GROUP_SIZE
    push_cast
    ring
  have hargc : T * (CURR_SAMPLING_FREQUENCY / 1000) = T * 1000 / 1000 := by
    unfold CURR_SAMPLING_FREQUENCY BASE_SAMPLING_FREQUENCY
    ring
  have hvz : (0 : ℚ) ≤ T * (VIB_SAMPLING_FREQUENCY / 1000) := by
    rw [hargv]
    positivity
  have hcz : (0 : ℚ) ≤ T * (CURR_SAMPLING_FREQUENCY / 1000) := by
    rw [hargc]
    positivity
  have hvibdef : plc_N_inc_vib T =
      min (pyRound (T * (VIB_SAMPLING_FREQUENCY / 1000))) 1000 := by
    unfold plc_N_inc_vib
    norm_num [VIBRATION_GROUP_SIZE, SAMPLE_COUNT]
  have hcurrdef : plc_N_inc_curr T =
      min (pyRound (T * (CURR_SAMPLING_FREQUENCY / 1000))) 100 := by
    unfold plc_N_inc_curr
    norm_num [SAMPLE_COUNT]
  refine ⟨⟨?_, ?_, ?_, ?_, ?_, ?_⟩, ?_, ?_, ?_, ?_⟩
  · rw [hvibdef, hargv]
  · rw [hvibdef]
    exact le_min (pyRound_nonneg _ hvz) (by norm_num)
  · rw [hvibdef]
    exact min_le_right _ _
  · rw [hcurrdef, hargc]
  · rw [hcurrdef]
    exact le_min (pyRound_nonneg _ hcz) (by norm_num)
  · rw [hcurrdef]
    exact min_le_right _ _
  · intro h100
    constructor
    · rw [hvibdef]
      refine min_eq_right (le_pyRound_of_le _ _ ?_)
      rw [hargv]
      push_cast
      nlinarith
    · rw [hcurrdef]
      refine min_eq_right (le_pyRound_of_le _ _ ?_)
      rw [hargc]
      push_cast
      nlinarith
  · unfold plc_N_inc_vib
    have harg : (10 : ℚ) * (VIB_SAMPLING_FREQUENCY / 1000) = ((100 : ℤ) : ℚ) := by
      unfold VIB_SAMPLING_FREQUENCY BASE_SAMPLING_FREQUENCY VIBRATION_GROUP_SIZE
      norm_num
    rw [harg, pyRound_intCast]
    norm_num [VIBRATION_GROUP_SIZE, SAMPLE_COUNT]
  · unfold plc_N_inc_curr
    have harg : (10 : ℚ) * (CURR_SAMPLING_FREQUENCY / 1000) = ((10 : ℤ) : ℚ) := by
      unfold CURR_SAMPLING_FREQUENCY BASE_SAMPLING_FREQUENCY
      norm_num
    rw [harg, pyRound_intCast]
    norm_num [SAMPLE_COUNT]
  · unfold gk_N_inc_curr
    norm_num [SAMPLE_COUNT]

/-- Claim C5, counterexample: at `intervalMs = 1.9` ms the
`data_process_gongkuang.py` window size is `int(1.9) = 1`, while the
claimed formula `round(1.9 * 1000 / 1000)` clamped into `[0, 100]`
gives 2. -/
theorem C5_counterexample :
    gk_N_inc_curr (19 / 10) = 1 ∧
    spec_N_inc (19 / 10) BASE_SAMPLING_FREQUENCY SAMPLE_COUNT = 2 ∧
    (1 : ℤ) ≠ 2 := by
  have hfl : ⌊(19 / 10 : ℚ)⌋ = 1 := by
    rw [Int.floor_eq_iff]
    constructor <;> norm_num
  have htr : pyTrunc (19 / 10) = 1 := by
    unfold pyTrunc
    rw [if_neg (by norm_num), hfl]
  have hrd : pyRound (19 / 10 : ℚ) = 2 := by
    unfold pyRound
    rw [hfl]
    norm_num
  refine ⟨?_, ?_, by norm_num⟩
  · unfold gk_N_inc_curr
    rw [htr]
    norm_num [SAMPLE_COUNT]
  · unfold spec_N_inc
    have harg : (19 / 10 : ℚ) * BASE_SAMPLING_FREQUENCY / 1000 = 19 / 10 := by
      unfold BASE_SAMPLING_FREQUENCY
      norm_num
    rw [harg, hrd]
    norm_num [SAMPLE_COUNT]

/-- Claim C5, witness: the amended statement instantiated at the default
10 ms interval. -/
theorem C5_witness :
    plc_N_inc_vib 10 = 100 ∧ plc_N_inc_curr 10 = 10 := by
  have h := C5_amended 10 (by norm_num)
  exact ⟨h.2.2.1, h.2.2.2.1⟩

theorem monitor_step_not_running (idle_thresh vib_thresh : ℝ)
    (fetch : Option (List ℤ × List ℤ)) (s : MonitorState)
    (hs : s.is_realtime_running = false) :
    monitor_step idle_thresh vib_thresh fetch s = s := by
  unfold monitor_step
  rw [hs]
  rfl

theorem monitor_step_none (idle_thresh vib_thresh : ℝ) (s : MonitorState)
    (hs : s.is_realtime_running = true) :
    monitor_step idle_thresh vib_thresh none s = { s with is_realtime_running := false } := by
  unfold monitor_step
  rw [hs]
  rfl

theorem monitor_step_fetch_some (idle_thresh vib_thresh : ℝ) (raw_data index_data : List ℤ)
    (s : MonitorState) (hs : s.is_realtime_running = true) :
    monitor_step idle_thresh vib_thresh (some (raw_data, index_data)) s =
      monitor_cycle_body idle_thresh vib_thresh raw_data index_data s := by
  unfold monitor_step
  rw [hs]
  rfl

theorem monitor_step_shape_fail (idle_thresh vib_thresh : ℝ) (raw_data index_data : List ℤ)
    (s : MonitorState) (hs : s.is_realtime_running = true)
    (hp : process_data_gk raw_data index_data = none) :
    monitor_step idle_thresh vib_thresh (some (raw_data, index_data)) s = s := by
  rw [monitor_step_fetch_some idle_thresh vib_thresh raw_data index_data s hs]
  unfold monitor_cycle_body
  rw [hp]

theorem monitor_step_some (idle_thresh vib_thresh : ℝ) (raw_data index_data : List ℤ)
    (pd : ProcessedData) (s : MonitorState) (hs : s.is_realtime_running = true)
    (hp : process_data_gk raw_data index_data = some pd) :
    monitor_step idle_thresh vib_thresh (some (raw_data, index_data)) s =
      if (classify_step (calculate_current_feature pd.A pd.B pd.C)
            (calculate_vibration_feature pd.Z) idle_thresh vib_thresh
            s.cutting_state s.state_history STABILITY_CHECK_COUNT).1 = CUTTING then
        ⟨(classify_step (calculate_current_feature pd.A pd.B pd.C)
            (calculate_vibration_feature pd.Z) idle_thresh vib_thresh
            s.cutting_state s.state_history STABILITY_CHECK_COUNT).1,
          (classify_step (calculate_current_feature pd.A pd.B pd.C)
            (calculate_vibration_feature pd.Z) idle_thresh vib_thresh
            s.cutting_state s.state_history STABILITY_CHECK_COUNT).2,
          s.sample_index + 1, s.is_realtime_running, s.saved_count + 1⟩
      else
        ⟨(classify_step (calculate_current_feature pd.A pd.B pd.C)
            (calculate_vibration_feature pd.Z) idle_thresh vib_thresh
            s.cutting_state s.state_history STABILITY_CHECK_COUNT).1,
          (classify_step (calculate_current_feature pd.A pd.B pd.C)
            (calculate_vibration_feature pd.Z) idle_thresh vib_thresh
            s.cutting_state s.state_history STABILITY_CHECK_COUNT).2,
          s.sample_index + 1, s.is_realtime_running, s.saved_count⟩ := by
  rw [monitor_step_fetch_some idle_thresh vib_thresh raw_data index_data s hs]
  unfold monitor_cycle_body
  rw [hp]

theorem monitor_run_nil (idle_thresh vib_thresh : ℝ) (s : MonitorState) :
    monitor_run idle_thresh vib_thresh [] s = s := rfl

theorem monitor_run_cons (idle_thresh vib_thresh : ℝ) (inp : Option (List ℤ × List ℤ))
    (rest : List (Option (List ℤ × List ℤ))) (s : MonitorState) :
    monitor_run idle_thresh vib_thresh (inp :: rest) s =
      monitor_run idle_thresh vib_thresh rest (monitor_step idle_thresh vib_thresh inp s) := rfl

/-- Claim C4 (amended): on a failed atomic fetch (`TransportFailure`) or a
failed reshape (`ShapeMismatch`) the cycle aborts without mutating any
classifier state — confirmed state, history queue and cycle counter are
unchanged. On `ShapeMismatch` the whole state is untouched and the
running flag stays set, so the next tick is scheduled; on
`TransportFailure`, however, the monitor stops itself
(`stop_realtime_monitor()`): the running flag becomes `false` and no
further tick is scheduled. -/
theorem C4_amended (idle_thresh vib_thresh : ℝ) (s : MonitorState)
    (hs : s.is_realtime_running = true) :
    (∀ raw_data index_data : List ℤ, process_data_gk raw_data index_data = none →
      monitor_step idle_thresh vib_thresh (some (raw_data, index_data)) s = s) ∧
    ((monitor_step idle_thresh vib_thresh none s).cutting_state = s.cutting_state ∧
      (monitor_step idle_thresh vib_thresh none s).state_history = s.state_history ∧
      (monitor_step idle_thresh vib_thresh none s).sample_index = s.sample_index ∧
      (monitor_step idle_thresh vib_thresh none s).saved_count = s.saved_count ∧
      (monitor_step idle_thresh vib_thresh none s).is_realtime_running = false) := by
  constructor
  · intro raw_data index_data hp
    exact monitor_step_shape_fail idle_thresh vib_thresh raw_data index_data s hs hp
  · rw [monitor_step_none idle_thresh vib_thresh s hs]
    exact ⟨rfl, rfl, rfl, rfl, rfl⟩

/-- Claim C4, counterexample: a transport failure does not leave the
monitor running for the next tick — from a running state, a `none`
fetch turns the running flag off (the source stops the loop), so the
monitor does not keep running. -/
theorem C4_counterexample :
    initial_monitor_state.is_realtime_running = true ∧
    (monitor_step 50 2000 none initial_monitor_state).is_realtime_running ≠ true := by
  refine ⟨rfl, ?_⟩
  rw [monitor_step_none 50 2000 initial_monitor_state rfl]
  simp

/-- Claim C4, witness: the amended statement instantiated at the initial
monitor state, with an empty raw block (reshape failure) and a `none`
fetch. -/
theorem C4_witness :
    monitor_step 50 2000 (some ([], [])) initial_monitor_state = initial_monitor_state ∧
    (monitor_step 50 2000 none initial_monitor_state).sample_index =
      initial_monitor_state.sample_index := by
  have h := C4_amended 50 2000 initial_monitor_state rfl
  exact ⟨h.1 [] [] rfl, h.2.2.2.1⟩

theorem count_CUTTING_eq_zero_of_all_stop (l : List CState) (h : ∀ x ∈ l, x = STOP) :
    l.count CUTTING = 0 ∧ l.count IDLE = 0 := by
  constructor <;> rw [List.count_eq_zero] <;> intro hmem
  · exact absurd (h _ hmem) (by decide)
  · exact absurd (h _ hmem) (by decide)

theorem fsm_transition_stop (q : List CState) (hq : ∀ x ∈ q, x = STOP) :
    fsm_transition STOP q STABILITY_CHECK_COUNT = STOP := by
  obtain ⟨hc, hi⟩ := count_CUTTING_eq_zero_of_all_stop q hq
  have h5 : STABILITY_CHECK_COUNT = 5 := rfl
  unfold fsm_transition
  rw [hc, hi]
  split_ifs with h1 h2 h3 h4
  · exact absurd h1.2 (by omega)
  · exact absurd h2.1 (by decide)
  · rfl
  · exact absurd h4 (by omega)
  · rfl

theorem push_history_all_stop (q : List CState) (H : ℕ) (hq : ∀ x ∈ q, x = STOP) :
    ∀ x ∈ push_history q STOP H, x = STOP := by
  intro x hx
  rw [push_history_eq] at hx
  by_cases hlen : (q ++ [STOP]).length > H
  · rw [if_pos hlen] at hx
    rcases List.mem_append.mp (List.mem_of_mem_tail hx) with h | h
    · exact hq x h
    · simpa using h
  · rw [if_neg hlen] at hx
    rcases List.mem_append.mp hx with h | h
    · exact hq x h
    · simpa using h

theorem monitor_step_stop_preserved (idle_thresh vib_thresh : ℝ)
    (inp : Option (List ℤ × List ℤ)) (s : MonitorState)
    (hgood : ∃ raw_data index_data pd, inp = some (raw_data, index_data) ∧
      process_data_gk raw_data index_data = some pd ∧
      calculate_current_feature pd.A pd.B pd.C < idle_thresh)
    (hstop : s.cutting_state = STOP) (hhist : ∀ x ∈ s.state_history, x = STOP)
    (hsaved : s.saved_count = 0) (hrun : s.is_realtime_running = true) :
    (monitor_step idle_thresh vib_thresh inp s).cutting_state = STOP ∧
    (∀ x ∈ (monitor_step idle_thresh vib_thresh inp s).state_history, x = STOP) ∧
    (monitor_step idle_thresh vib_thresh inp s).saved_count = 0 ∧
    (monitor_step idle_thresh vib_thresh inp s).is_realtime_running = true := by
  obtain ⟨raw_data, index_data, pd, rfl, hp, hfeat⟩ := hgood
  rw [monitor_step_some idle_thresh vib_thresh raw_data index_data pd s hrun hp]
  have hinst : instant_state (calculate_current_feature pd.A pd.B pd.C)
      (calculate_vibration_feature pd.Z) idle_thresh vib_thresh = STOP := by
    unfold instant_state
    rw [if_neg (not_le.mpr hfeat)]
  have hkey : classify_step (calculate_current_feature pd.A pd.B pd.C)
      (calculate_vibration_feature pd.Z) idle_thresh vib_thresh
      s.cutting_state s.state_history STABILITY_CHECK_COUNT =
      (STOP, push_history s.state_history STOP STABILITY_CHECK_COUNT) := by
    rw [classify_step_eq, hinst, hstop]
    exact Prod.ext (fsm_transition_stop _ (push_history_all_stop _ _ hhist)) rfl
  rw [hkey]
  rw [if_neg (show
      ¬(STOP, push_history s.state_history STOP STABILITY_CHECK_COUNT).1 = CUTTING
    by simp)]
  exact ⟨rfl, push_history_all_stop _ _ hhist, hsaved, hrun⟩

/-- Claim C7: under the (hardcoded) cuttingOnly emit policy of
`realtime_monitor_loop`, in every classified cycle the downstream
save/emit collaborator is invoked exactly when the confirmed state of
that cycle is CUTTING (the emit count grows by 1 when it is, by 0
otherwise); and feeding cycles whose current feature stays below the
idle threshold, starting from the initial STOP state, keeps the
confirmed state STOP throughout and leaves the downstream emit count
at 0. -/
theorem C7_cutting_only_emit :
    (∀ (idle_thresh vib_thresh : ℝ) (raw_data index_data : List ℤ) (pd : ProcessedData)
        (s : MonitorState), s.is_realtime_running = true →
        process_data_gk raw_data index_data = some pd →
        (monitor_step idle_thresh vib_thresh (some (raw_data, index_data)) s).saved_count =
          s.saved_count +
            (if (monitor_step idle_thresh vib_thresh
                (some (raw_data, index_data)) s).cutting_state = CUTTING then 1 else 0)) ∧
    (∀ (idle_thresh vib_thresh : ℝ) (inputs : List (Option (List ℤ × List ℤ))),
        (∀ inp ∈ inputs, ∃ raw_data index_data pd, inp = some (raw_data, index_data) ∧
          process_data_gk raw_data index_data = some pd ∧
          calculate_current_feature pd.A pd.B pd.C < idle_thresh) →
        (monitor_run idle_thresh vib_thresh inputs initial_monitor_state).cutting_state =
          STOP ∧
        (monitor_run idle_thresh vib_thresh inputs initial_monitor_state).saved_count = 0) := by
  constructor
  · intro idle_thresh vib_thresh raw_data index_data pd s hs hp
    rw [monitor_step_some idle_thresh vib_thresh raw_data index_data pd s hs hp]
    by_cases hcut : (classify_step (calculate_current_feature pd.A pd.B pd.C)
        (calculate_vibration_feature pd.Z) idle_thresh vib_thresh
        s.cutting_state s.state_history STABILITY_CHECK_COUNT).1 = CUTTING
    · rw [if_pos hcut]
      simp [hcut]
    · rw [if_neg hcut]
      simp [hcut]
  · intro idle_thresh vib_thresh inputs hgood
    have haux : ∀ (rest : List (Option (List ℤ × List ℤ))) (s : MonitorState),
        (∀ inp ∈ rest, ∃ raw_data index_data pd, inp = some (raw_data, index_data) ∧
          process_data_gk raw_data index_data = some pd ∧
          calculate_current_feature pd.A pd.B pd.C < idle_thresh) →
        s.cutting_state = STOP → (∀ x ∈ s.state_history, x = STOP) →
        s.saved_count = 0 → s.is_realtime_running = true →
        (monitor_run idle_thresh vib_thresh rest s).cutting_state = STOP ∧
        (monitor_run idle_thresh vib_thresh rest s).saved_count = 0 := by
      intro rest
      induction rest with
      | nil =>
        intro s _ h1 _ h3 _
        exact ⟨h1, h3⟩
      | cons inp tail ih =>
        intro s hg h1 h2 h3 h4
        have hstep := monitor_step_stop_preserved idle_thresh vib_thresh inp s
          (hg inp (List.mem_cons_self _ _)) h1 h2 h3 h4
        rw [monitor_run_cons]
        exact ih (monitor_step idle_thresh vib_thresh inp s)
          (fun x hx => hg x (List.mem_cons_of_mem _ hx))
          hstep.1 hstep.2.1 hstep.2.2.1 hstep.2.2.2
    exact haux inputs initial_monitor_state hgood rfl (by simp [initial_monitor_state])
      rfl rfl

theorem process_data_gk_pos (raw_data index_data : List ℤ)
    (h : raw_data.length = FULL_BUFFER_LENGTH) :
    process_data_gk raw_data index_data =
      some ⟨(((continuous_rows raw_data index_data).take VIBRATION_CHANNELS).take 10).flatten,
        ((((continuous_rows raw_data index_data).take VIBRATION_CHANNELS).drop 10).take
          10).flatten,
        ((((continuous_rows raw_data index_data).take VIBRATION_CHANNELS).drop 20).take
          10).flatten,
        ((continuous_rows raw_data index_data).drop VIBRATION_CHANNELS).getD 0 [],
        ((continuous_rows raw_data index_data).drop VIBRATION_CHANNELS).getD 1 [],
        ((continuous_rows raw_data index_data).drop VIBRATION_CHANNELS).getD 2 []⟩ := by
  unfold process_data_gk
  rw [if_pos h]

theorem getD_replicate {α : Type} (a d : α) (n i : ℕ) :
    (List.replicate n a).getD i d = if i < n then a else d := by
  by_cases h : i < n
  · rw [if_pos h, List.getD_eq_getElem _ _ (by simpa using h)]
    simp
  · rw [if_neg h, List.getD_eq_default]
    simpa using h

theorem reshape_rows_replicate (c : ℤ) :
    reshape_rows (List.replicate FULL_BUFFER_LENGTH c) =
      List.replicate FULL_CHANNELS (List.replicate SAMPLE_COUNT c) := by
  unfold reshape_rows
  refine List.eq_replicate_iff.mpr ⟨by simp, ?_⟩
  intro b hb
  rcases List.mem_map.mp hb with ⟨i, hi, rfl⟩
  have hilt : i < FULL_CHANNELS := List.mem_range.mp hi
  rw [List.drop_replicate, List.take_replicate]
  congr 1
  simp only [show SAMPLE_COUNT = 100 from rfl, show FULL_BUFFER_LENGTH = 8000 from rfl] at *
  simp only [show FULL_CHANNELS = 80 from rfl] at hilt
  omega

theorem dp_reconstruct_replicate (c : ℤ) (n : ℕ) (p : ℤ) :
    dp_reconstruct (List.replicate n c) p = List.replicate n c := by
  rw [dp_reconstruct_eq_rotate, List.rotate_replicate]

theorem flatten_replicate_replicate (n m : ℕ) (c : ℤ) :
    (List.replicate n (List.replicate m c)).flatten = List.replicate (n * m) c := by
  induction n with
  | zero => simp
  | succ k ih =>
    rw [List.replicate_succ, List.flatten_cons, ih, ← List.replicate_add]
    congr 1
    ring

theorem continuous_rows_replicate_zero (index_data : List ℤ) :
    continuous_rows (List.replicate FULL_BUFFER_LENGTH 0) index_data =
      List.replicate TOTAL_CHANNELS (List.replicate SAMPLE_COUNT 0) := by
  unfold continuous_rows
  refine List.eq_replicate_iff.mpr ⟨by simp, ?_⟩
  intro b hb
  rcases List.mem_map.mp hb with ⟨i, hi, rfl⟩
  have hilt : i < TOTAL_CHANNELS := List.mem_range.mp hi
  rw [reshape_rows_replicate 0, getD_replicate, if_pos (by
    simp only [show TOTAL_CHANNELS = 33 from rfl] at hilt
    simp only [show FULL_CHANNELS = 80 from rfl]
    omega)]
  exact dp_reconstruct_replicate 0 SAMPLE_COUNT _

theorem process_data_gk_zero :
    process_data_gk (List.replicate FULL_BUFFER_LENGTH 0)
        (List.replicate FULL_CHANNELS 0) =
      some ⟨List.replicate 1000 0, List.replicate 1000 0, List.replicate 1000 0,
        List.replicate SAMPLE_COUNT 0, List.replicate SAMPLE_COUNT 0,
        List.replicate SAMPLE_COUNT 0⟩ := by
  rw [process_data_gk_pos _ _ (by simp), continuous_rows_replicate_zero]
  simp only [show VIBRATION_CHANNELS = 30 from rfl, show TOTAL_CHANNELS = 33 from rfl,
    show SAMPLE_COUNT = 100 from rfl, List.take_replicate, List.drop_replicate,
    flatten_replicate_replicate, getD_replicate]
  norm_num

theorem calculate_current_feature_replicate_zero :
    calculate_current_feature (List.replicate SAMPLE_COUNT 0)
      (List.replicate SAMPLE_COUNT 0) (List.replicate SAMPLE_COUNT 0) = 0 := by
  unfold calculate_current_feature
  rw [meanSq_replicate 0 SAMPLE_COUNT (by decide)]
  norm_num [Real.sqrt_zero]

/-- Claim C7, witness: five all-zero-data cycles from the initial state
with idle threshold 50 — the current feature of each cycle is 0, the
confirmed state stays STOP and the emit count stays 0. -/
theorem C7_witness :
    (monitor_run 50 2000 (List.replicate 5 (some (List.replicate FULL_BUFFER_LENGTH 0,
        List.replicate FULL_CHANNELS 0))) initial_monitor_state).cutting_state = STOP ∧
    (monitor_run 50 2000 (List.replicate 5 (some (List.replicate FULL_BUFFER_LENGTH 0,
        List.replicate FULL_CHANNELS 0))) initial_monitor_state).saved_count = 0 := by
  refine C7_cutting_only_emit.2 50 2000 _ ?_
  intro inp hmem
  have hin := List.eq_of_mem_replicate hmem
  subst hin
  refine ⟨List.replicate FULL_BUFFER_LENGTH 0, List.replicate FULL_CHANNELS 0,
    ⟨List.replicate 1000 0, List.replicate 1000 0, List.replicate 1000 0,
      List.replicate SAMPLE_COUNT 0, List.replicate SAMPLE_COUNT 0,
      List.replicate SAMPLE_COUNT 0⟩, rfl, process_data_gk_zero, ?_⟩
  show calculate_current_feature (List.replicate SAMPLE_COUNT 0)
    (List.replicate SAMPLE_COUNT 0) (List.replicate SAMPLE_COUNT 0) < 50
  rw [calculate_current_feature_replicate_zero]
  norm_num
